import Mathlib

/-!
Verification development for the core of the Fuse ZX Spectrum emulator:
the Z80 supplementary routines (`z80.c`) and the generic Spectrum
routines (`spectrum.c`).  The C code is embedded shallowly: machine
integers are `Nat` (unsigned) or `Int` (signed) with explicit wrapping
where the C types wrap, memory is a function from addresses to bytes,
and the global mutable state is passed explicitly.
-/

namespace Fuse

/-- Low byte of a 16-bit word (the `.b.l` member of the register-pair union). -/
def lo8 (w : Nat) : Nat := w % 256

/-- High byte of a 16-bit word (the `.b.h` member of the register-pair union). -/
def hi8 (w : Nat) : Nat := w / 256 % 256

/-- Reinterpret an integer as a 32-bit two's-complement signed value,
as a C cast `(libspectrum_signed_dword)x` does. -/
def toSigned32 (n : Int) : Int :=
  let m := n % (2 ^ 32)
  if m < 2 ^ 31 then m else m - 2 ^ 32

/-- Parity/overflow flag bit of the Z80 flag register (`FLAG_P` = `FLAG_V` = 0x04
in `z80_macros.h`; the file is not part of this slice, the value is the
documented Z80 P/V bit position). -/
def FLAG_P : Nat := 0x04

/-- The Z80 processor state: the `processor` struct of `z80.h` acted on by
`z80.c`.  Register pairs are 16-bit words; `hi8`/`lo8` recover the byte
halves (`A` is `hi8 af`, `F` is `lo8 af`, and so on).  `interrupts_enabled_at`
is signed (`-1` is the "not pending" sentinel). -/
structure Z80State where
  af : Nat
  bc : Nat
  de : Nat
  hl : Nat
  af_ : Nat
  bc_ : Nat
  de_ : Nat
  hl_ : Nat
  ix : Nat
  iy : Nat
  sp : Nat
  pc : Nat
  memptr : Nat
  i : Nat
  r : Nat
  r7 : Nat
  iff1 : Nat
  iff2 : Nat
  im : Nat
  q : Nat
  halted : Nat
  iff2_read : Nat
  interrupts_enabled_at : Int
  deriving DecidableEq

/-- Embedding of `z80_reset` from `z80.c`: sets AF, AF' to 0xffff, clears the
interrupt and refresh state, and additionally clears BC/DE/HL, the shadow
pairs, IX, IY and MEMPTR on a hard reset (`hard_reset` is the C `int`
argument, nonzero meaning hard). -/
def z80_reset (hard_reset : Nat) (z : Z80State) : Z80State :=
  let z := { z with
    af := 0xffff, af_ := 0xffff,
    i := 0, r := 0, r7 := 0,
    pc := 0,
    sp := 0xffff,
    iff1 := 0, iff2 := 0, im := 0,
    halted := 0,
    iff2_read := 0,
    q := 0 }
  let z := if hard_reset ≠ 0 then
    { z with bc := 0, de := 0, hl := 0,
             bc_ := 0, de_ := 0, hl_ := 0,
             ix := 0, iy := 0,
             memptr := 0 }
    else z
  { z with interrupts_enabled_at := -1 }

/-- Collaborator parameters consumed by `z80_interrupt`:
`interrupt_length` from `machine_current->timings`, the SCLD
`intdisable` bit, the `IS_CMOS` setting, the event-kind id
`z80_interrupt_event` registered at startup, and the T-state costs of the
memory bus accesses (`writebyte`/`readbyte` are external to this slice, so
their costs are uninterpreted functions of the address and the time of the
access). -/
structure IntParams where
  interrupt_length : Nat
  intdisable : Bool
  is_cmos : Bool
  z80_interrupt_event : Nat
  rcost : Nat → Nat → Nat
  wcost : Nat → Nat → Nat

/-- The machine-wide state touched by the interrupt code besides the
processor: the visible 64 KiB memory (through the bus), the T-state clock
and the scheduler queue of `(due_tstate, event_kind)` entries, kept in due
order. -/
structure BusState where
  mem : Nat → Nat
  tstates : Nat
  events : List (Nat × Nat)

instance decRelDueLt : DecidableRel (fun a b : Nat × Nat => a.1 < b.1) :=
  fun _ _ => Nat.decLt _ _

/-- Modelled from the spec: `event_add(due, kind)` of the event scheduler
(`event.c` is not part of this slice).  The queue is ordered by `due_tstate`
ascending with ties broken by insertion order, so a new entry is inserted
after every entry whose due time is not later. -/
def event_add (due kind : Nat) (evs : List (Nat × Nat)) : List (Nat × Nat) :=
  List.orderedInsert (fun a b => a.1 < b.1) (due, kind) evs

/-- Modelled from the spec: `writebyte(addr, val)` of the memory bus
(`memory_pages.c` is not part of this slice): stores the byte and increments
`tstates` by the base access cost plus contention, here the uninterpreted
cost `wcost addr tstates`. -/
def writebyte (p : IntParams) (addr v : Nat) (b : BusState) : BusState :=
  { b with mem := Function.update b.mem addr (v % 256),
           tstates := b.tstates + p.wcost addr b.tstates }

/-- Modelled from the spec: `readbyte(addr)` of the memory bus
(`memory_pages.c` is not part of this slice): returns the byte and increments
`tstates` by the base access cost plus contention, here the uninterpreted
cost `rcost addr tstates`. -/
def readbyte (p : IntParams) (addr : Nat) (b : BusState) : Nat × BusState :=
  (b.mem addr % 256, { b with tstates := b.tstates + p.rcost addr b.tstates })

/-- Embedding of `z80_interrupt` from `z80.c` (maskable interrupt
acceptance).  Returns `none` exactly on the fatal "unknown interrupt mode"
path (`fuse_abort`); otherwise `some (accepted, z', bus', rzx_offset')`
where `accepted` is the C return value (1 accepted, 0 not).  `inttemp` is a
`libspectrum_word`, so its arithmetic wraps at 2^16; the comparison with
`interrupts_enabled_at` is numeric equality (within the acceptance window
`tstates < interrupt_length` the C signed/unsigned conversion cannot
change its outcome for in-range values). -/
def z80_interrupt (p : IntParams) (z : Z80State) (b : BusState)
    (rzx_instructions_offset : Int) :
    Option (Nat × Z80State × BusState × Int) :=
  if z.iff1 ≠ 0 ∧ b.tstates < p.interrupt_length ∧ ¬ p.intdisable then
    let z := if z.iff2_read ≠ 0 ∧ ¬ p.is_cmos
      then { z with af := 256 * hi8 z.af + (lo8 z.af &&& 0xfb) }
      else z
    if (b.tstates : Int) = z.interrupts_enabled_at then
      some (0, z,
        { b with events := event_add (b.tstates + 1) p.z80_interrupt_event b.events },
        rzx_instructions_offset)
    else
      let z := if z.halted ≠ 0 then { z with pc := (z.pc + 1) % 65536, halted := 0 } else z
      let z := { z with iff1 := 0, iff2 := 0, r := (z.r + 1) % 256 }
      let off := rzx_instructions_offset - 1
      let b := { b with tstates := b.tstates + 7 }
      let sp1 := (z.sp + 65535) % 65536
      let b := writebyte p sp1 (hi8 z.pc) b
      let sp2 := (sp1 + 65535) % 65536
      let b := writebyte p sp2 (lo8 z.pc) b
      let z := { z with sp := sp2 }
      let jump : Option (Nat × BusState) :=
        match z.im with
        | 0 => some (0x0038, b)
        | 1 => some (0x0038, b)
        | 2 =>
          let inttemp := (0x100 * z.i + 0xff) % 65536
          let rd1 := readbyte p inttemp b
          let rd2 := readbyte p ((inttemp + 1) % 65536) rd1.2
          some (256 * rd2.1 + rd1.1, rd2.2)
        | _ => none
      match jump with
      | some (newpc, b) => some (1, { z with pc := newpc, memptr := newpc, q := 0 }, b, off)
      | none => none
  else
    some (0, z, b, rzx_instructions_offset)

/-- Concrete collaborator parameters for the end-to-end scenarios: 48K-like
interrupt window, no Timex inhibit, NMOS part, and a flat bus cost of 3
T-states per memory access. -/
def exParams : IntParams :=
  { interrupt_length := 32, intdisable := false, is_cmos := false,
    z80_interrupt_event := 0, rcost := fun _ _ => 3, wcost := fun _ _ => 3 }

/-- Concrete processor state for the IM 2 acceptance scenario: IFF1 set,
IM 2, I=0x80, PC=0xABCD, SP=0x8000. -/
def exState : Z80State :=
  { af := 0, bc := 0, de := 0, hl := 0, af_ := 0, bc_ := 0, de_ := 0, hl_ := 0,
    ix := 0, iy := 0, sp := 0x8000, pc := 0xABCD, memptr := 0,
    i := 0x80, r := 0, r7 := 0, iff1 := 1, iff2 := 1, im := 2, q := 0,
    halted := 0, iff2_read := 0, interrupts_enabled_at := -1 }

/-- Concrete bus for the IM 2 acceptance scenario: vector table bytes 0x34 at
0x80FF and 0x12 at 0x8100, clock at 0, empty scheduler queue. -/
def exBus : BusState :=
  { mem := fun a => if a = 0x80FF then 0x34 else if a = 0x8100 then 0x12 else 0,
    tstates := 0, events := [] }

/-- C1 (amended): IM 2 acceptance.  When IFF1 is set, `tstates` is inside the
interrupt window, the SCLD inhibit is clear, the CPU is not halted and the
EI-deferral test fails, a call with IM = 2 returns accepted having cleared
IFF1 and IFF2, pushed the PC high byte then the low byte onto the stack
(SP dropping by 2 mod 2^16), loaded PC little-endian from `(I<<8)|0xFF`,
set MEMPTR to the new PC and Q to 0, and added 7 to `tstates` plus the
costs of the two stack writes *and of the two vector-table reads* (the
amendment: the original claim omitted the read costs, but every `readbyte`
also advances `tstates` by its access cost). -/
theorem z80_interrupt_im2_accept (p : IntParams) (z : Z80State) (b : BusState)
    (off : Int)
    (h1 : z.iff1 ≠ 0) (h2 : b.tstates < p.interrupt_length) (h3 : ¬ p.intdisable)
    (h4 : ¬ ((b.tstates : Int) = z.interrupts_enabled_at))
    (h5 : z.halted = 0) (h6 : z.im = 2) :
    z80_interrupt p z b off =
      (let sp1 := (z.sp + 65535) % 65536
       let sp2 := (sp1 + 65535) % 65536
       let mem2 := Function.update (Function.update b.mem sp1 (hi8 z.pc % 256))
         sp2 (lo8 z.pc % 256)
       let vec := (0x100 * z.i + 0xff) % 65536
       let vec2 := (vec + 1) % 65536
       let t1 := b.tstates + 7
       let t2 := t1 + p.wcost sp1 t1
       let t3 := t2 + p.wcost sp2 t2
       let t4 := t3 + p.rcost vec t3
       let t5 := t4 + p.rcost vec2 t4
       let newpc := 256 * (mem2 vec2 % 256) + mem2 vec % 256
       some (1,
         { (if z.iff2_read ≠ 0 ∧ ¬ p.is_cmos
             then { z with af := 256 * hi8 z.af + (lo8 z.af &&& 0xfb) } else z) with
           iff1 := 0, iff2 := 0, r := (z.r + 1) % 256,
           sp := sp2, pc := newpc, memptr := newpc, q := 0 },
         { mem := mem2, tstates := t5, events := b.events }, off - 1)) := by
  have hcond : z.iff1 ≠ 0 ∧ b.tstates < p.interrupt_length ∧ ¬ p.intdisable := ⟨h1, h2, h3⟩
  by_cases hc : z.iff2_read ≠ 0 ∧ ¬ p.is_cmos
  · simp only [z80_interrupt, writebyte, readbyte, h5, h6, if_pos hcond, if_pos hc,
      if_neg h4, ne_eq, not_true_eq_false, if_false, ite_false]
  · simp only [z80_interrupt, writebyte, readbyte, h5, h6, if_pos hcond, if_neg hc,
      if_neg h4, ne_eq, not_true_eq_false, if_false, ite_false]

/-- C1 witness: the scenario instance.  All hypotheses hold at
`exParams`/`exState`/`exBus`, and the amended theorem applies, giving
acceptance with PC=0x1234, SP=0x7FFE, the pushed bytes 0xAB/0xCD, cleared
flip-flops, MEMPTR=0x1234 and the clock advanced to 19 = 7 + 4·3. -/
theorem z80_interrupt_im2_accept_witness :
    (exState.iff1 ≠ 0 ∧ exBus.tstates < exParams.interrupt_length ∧
      ¬ exParams.intdisable ∧ ¬ ((exBus.tstates : Int) = exState.interrupts_enabled_at) ∧
      exState.halted = 0 ∧ exState.im = 2) ∧
    (match z80_interrupt exParams exState exBus 0 with
      | some (acc, z1, b1, o) =>
          acc = 1 ∧ z1.pc = 0x1234 ∧ z1.sp = 0x7FFE ∧ b1.mem 0x7FFF = 0xAB ∧
          b1.mem 0x7FFE = 0xCD ∧ z1.iff1 = 0 ∧ z1.iff2 = 0 ∧ z1.memptr = 0x1234 ∧
          b1.tstates = 19 ∧ o = -1
      | none => False) := by
  refine ⟨by decide, ?_⟩
  rw [z80_interrupt_im2_accept exParams exState exBus 0 (by decide) (by decide)
    (by decide) (by decide) (by decide) (by decide)]
  decide

/-- C1 counterexample: at the scenario input the clock advances by 19
T-states (7 plus the costs of the two stack writes *and* of the two
vector-table reads, all 3 here), not by the claimed 7 plus the two write
costs only, which would be 13. -/
theorem z80_interrupt_im2_tstates_counterexample :
    (match z80_interrupt exParams exState exBus 0 with
      | some (_, _, b1, _) => b1.tstates
      | none => 0) = 19 ∧ (19 : Nat) ≠ 0 + 7 + 3 + 3 := by
  decide

/-- C3: deferred acceptance after EI.  When the acceptance preconditions hold
but `tstates` equals `interrupts_enabled_at`, `z80_interrupt` returns "not
accepted" and enqueues exactly one scheduler entry of the interrupt-event
kind due at `tstates + 1`, leaving PC, SP, IFF1, IFF2, the memory and the
clock untouched (the new queue is a permutation of the old queue with the
single new entry added). -/
theorem z80_interrupt_deferred (p : IntParams) (z : Z80State) (b : BusState)
    (off : Int)
    (h1 : z.iff1 ≠ 0) (h2 : b.tstates < p.interrupt_length) (h3 : ¬ p.intdisable)
    (h4 : (b.tstates : Int) = z.interrupts_enabled_at) :
    (match z80_interrupt p z b off with
      | some (acc, z1, b1, off1) =>
          acc = 0 ∧ off1 = off ∧ z1.pc = z.pc ∧ z1.sp = z.sp ∧ z1.iff1 = z.iff1 ∧
          z1.iff2 = z.iff2 ∧ b1.mem = b.mem ∧ b1.tstates = b.tstates ∧
          b1.events.Perm ((b.tstates + 1, p.z80_interrupt_event) :: b.events)
      | none => False) := by
  have hcond : z.iff1 ≠ 0 ∧ b.tstates < p.interrupt_length ∧ ¬ p.intdisable := ⟨h1, h2, h3⟩
  by_cases hc : z.iff2_read ≠ 0 ∧ ¬ p.is_cmos
  · simp only [z80_interrupt, if_pos hcond, if_pos hc, if_pos h4]
    simp [event_add, List.perm_orderedInsert]
  · simp only [z80_interrupt, if_pos hcond, if_neg hc, if_pos h4]
    simp [event_add, List.perm_orderedInsert]

/-- C3 witness: the scenario instance with
`interrupts_enabled_at = tstates = 100`: the call is not accepted, nothing
in the processor or memory changes, and one entry due at 101 is enqueued. -/
theorem z80_interrupt_deferred_witness :
    (({ exState with interrupts_enabled_at := 100 }).iff1 ≠ 0 ∧
      ({ exBus with tstates := 100 }).tstates < 101 ∧
      ¬ ({ exParams with interrupt_length := 101 }).intdisable ∧
      ((({ exBus with tstates := 100 }).tstates : Int) =
        ({ exState with interrupts_enabled_at := 100 }).interrupts_enabled_at)) ∧
    (match z80_interrupt { exParams with interrupt_length := 101 }
        { exState with interrupts_enabled_at := 100 }
        { exBus with tstates := 100 } 0 with
      | some (acc, z1, b1, off1) =>
          acc = 0 ∧ off1 = 0 ∧ z1.pc = 0xABCD ∧ z1.sp = 0x8000 ∧ z1.iff1 = 1 ∧
          z1.iff2 = 1 ∧ b1.tstates = 100 ∧ b1.events.Perm [(101, 0)]
      | none => False) := by
  refine ⟨by decide, ?_⟩
  have h := z80_interrupt_deferred { exParams with interrupt_length := 101 }
    { exState with interrupts_enabled_at := 100 }
    { exBus with tstates := 100 } 0 (by decide) (by decide) (by decide) (by decide)
  exact ⟨h.1, h.2.1, h.2.2.1, h.2.2.2.1, h.2.2.2.2.1, h.2.2.2.2.2.1,
    h.2.2.2.2.2.2.2.1, h.2.2.2.2.2.2.2.2⟩

/-- C10: in IM 2 acceptance the vector address lives in 16-bit arithmetic:
with `I < 256` the low byte of the new PC is read from `(I<<8)|0xFF` and the
high byte from `((I<<8)|0xFF)+1 mod 2^16`, both from the post-push memory;
for `I = 0xFF` the second address wraps to 0x0000. -/
theorem z80_interrupt_im2_vector_wrap (p : IntParams) (z : Z80State) (b : BusState)
    (off : Int)
    (h1 : z.iff1 ≠ 0) (h2 : b.tstates < p.interrupt_length) (h3 : ¬ p.intdisable)
    (h4 : ¬ ((b.tstates : Int) = z.interrupts_enabled_at))
    (h5 : z.halted = 0) (h6 : z.im = 2) (h7 : z.i < 256) :
    (match z80_interrupt p z b off with
      | some (acc, z1, b1, _) =>
          acc = 1 ∧
          z1.pc = 256 * (b1.mem ((0x100 * z.i + 0xff + 1) % 65536) % 256) +
            b1.mem (0x100 * z.i + 0xff) % 256
      | none => False) := by
  have hcond : z.iff1 ≠ 0 ∧ b.tstates < p.interrupt_length ∧ ¬ p.intdisable := ⟨h1, h2, h3⟩
  have hv : (0x100 * z.i + 0xff) % 65536 = 0x100 * z.i + 0xff :=
    Nat.mod_eq_of_lt (by omega)
  by_cases hc : z.iff2_read ≠ 0 ∧ ¬ p.is_cmos
  · simp only [z80_interrupt, writebyte, readbyte, h5, h6, if_pos hcond, if_pos hc,
      if_neg h4, ne_eq, not_true_eq_false, if_false, ite_false]
    rw [hv]
    exact ⟨trivial, rfl⟩
  · simp only [z80_interrupt, writebyte, readbyte, h5, h6, if_pos hcond, if_neg hc,
      if_neg h4, ne_eq, not_true_eq_false, if_false, ite_false]
    rw [hv]
    exact ⟨trivial, rfl⟩

/-- C10 witness: with I = 0xFF the low byte comes from address 0xFFFF and the
high byte read wraps around to address 0x0000; planting 0x77 at 0xFFFF and
0x55 at 0x0000 yields PC = 0x5577. -/
theorem z80_interrupt_im2_vector_wrap_witness :
    (let zI := { exState with i := 0xff }
     let bI : BusState :=
       { mem := fun a => if a = 0xFFFF then 0x77 else if a = 0 then 0x55 else 0,
         tstates := 0, events := [] }
     (zI.iff1 ≠ 0 ∧ zI.halted = 0 ∧ zI.im = 2 ∧ zI.i < 256) ∧
     (match z80_interrupt exParams zI bI 0 with
       | some (acc, z1, _, _) => acc = 1 ∧ z1.pc = 0x5577
       | none => False)) := by
  refine ⟨by decide, ?_⟩
  have h := z80_interrupt_im2_vector_wrap exParams { exState with i := 0xff }
    { mem := fun a => if a = 0xFFFF then 0x77 else if a = 0 then 0x55 else 0,
      tstates := 0, events := [] } 0
    (by decide) (by decide) (by decide) (by decide) (by decide) (by decide) (by decide)
  exact ⟨h.1, h.2⟩

/-- Flat snapshot record: the libspectrum_snap fields read and written by
`z80_from_snapshot` / `z80_to_snapshot` in `z80.c` (A, F and their shadows
as single bytes, the other pairs as 16-bit words, `r` the combined 8-bit
refresh form, and the two boolean markers). -/
structure Snap where
  a : Nat
  f : Nat
  a_ : Nat
  f_ : Nat
  bc : Nat
  de : Nat
  hl : Nat
  bc_ : Nat
  de_ : Nat
  hl_ : Nat
  ix : Nat
  iy : Nat
  i : Nat
  r : Nat
  sp : Nat
  pc : Nat
  memptr : Nat
  iff1 : Nat
  iff2 : Nat
  im : Nat
  halted : Nat
  last_instruction_ei : Bool
  last_instruction_set_f : Bool
  deriving DecidableEq

/-- Embedding of `z80_from_snapshot` from `z80.c`: loads every register from
the snapshot (A and F rebuild the AF pair), sets both R and R7 to the loaded
refresh byte, restores `interrupts_enabled_at` to the current `tstates` when
`last_instruction_ei` is set and to the sentinel otherwise, and restores Q
to the (freshly loaded) F when `last_instruction_set_f` is set and to 0
otherwise.  `iff2_read` is not touched. -/
def z80_from_snapshot (z : Z80State) (snap : Snap) (tstates : Nat) : Z80State :=
  { z with
    af := 256 * snap.a + snap.f,
    af_ := 256 * snap.a_ + snap.f_,
    bc := snap.bc, de := snap.de, hl := snap.hl,
    bc_ := snap.bc_, de_ := snap.de_, hl_ := snap.hl_,
    ix := snap.ix, iy := snap.iy,
    i := snap.i, r := snap.r, r7 := snap.r,
    sp := snap.sp, pc := snap.pc,
    iff1 := snap.iff1, iff2 := snap.iff2, im := snap.im,
    memptr := snap.memptr,
    halted := snap.halted,
    interrupts_enabled_at := if snap.last_instruction_ei then (tstates : Int) else -1,
    q := if snap.last_instruction_set_f then snap.f else 0 }

/-- Embedding of `z80_to_snapshot` from `z80.c`: stores every register,
combining the refresh register as `(R7 & 0x80) | (R & 0x7f)`, exporting
`last_instruction_ei` as the test `interrupts_enabled_at == tstates` and
`last_instruction_set_f` as `!!Q`. -/
def z80_to_snapshot (z : Z80State) (tstates : Nat) : Snap :=
  { a := hi8 z.af, f := lo8 z.af, a_ := hi8 z.af_, f_ := lo8 z.af_,
    bc := z.bc, de := z.de, hl := z.hl,
    bc_ := z.bc_, de_ := z.de_, hl_ := z.hl_,
    ix := z.ix, iy := z.iy,
    i := z.i,
    r := (z.r7 &&& 0x80) ||| (z.r &&& 0x7f),
    sp := z.sp, pc := z.pc,
    memptr := z.memptr,
    iff1 := z.iff1, iff2 := z.iff2, im := z.im,
    halted := z.halted,
    last_instruction_ei := decide (z.interrupts_enabled_at = (tstates : Int)),
    last_instruction_set_f := decide (z.q ≠ 0) }

set_option maxRecDepth 4096 in
/-- Recombining a byte's bit 7 and low 7 bits gives the byte back. -/
lemma byte_mask_split : ∀ w < 256, (w &&& 0x80) ||| (w &&& 0x7f) = w := by decide

/-- The combined refresh byte `(R7 & 0x80) | (R & 0x7f)` is below 0x100. -/
lemma r_combined_lt (r r7 : Nat) : (r7 &&& 0x80) ||| (r &&& 0x7f) < 256 := by
  have h1 : r7 &&& 0x80 < 256 := lt_of_le_of_lt Nat.and_le_right (by norm_num)
  have h2 : r &&& 0x7f < 256 := lt_of_le_of_lt Nat.and_le_right (by norm_num)
  have := Nat.or_lt_two_pow (n := 8) (by simpa using h1) (by simpa using h2)
  simpa using this

/-- Concrete processor state for the snapshot round-trip counterexample:
R = 1 with R7 = 0 (as after a single M1 cycle from reset) and a pending
`interrupts_enabled_at` = 5 older than the current clock. -/
def exSnapState : Z80State :=
  { af := 0, bc := 0, de := 0, hl := 0, af_ := 0, bc_ := 0, de_ := 0, hl_ := 0,
    ix := 0, iy := 0, sp := 0, pc := 0, memptr := 0,
    i := 0, r := 1, r7 := 0, iff1 := 0, iff2 := 0, im := 1, q := 0,
    halted := 0, iff2_read := 0, interrupts_enabled_at := 5 }

/-- Concrete processor state with Q set while F is zero (the documented
Q-when-F=0 ambiguity). -/
def exSnapQ : Z80State :=
  { exSnapState with r := 0, interrupts_enabled_at := -1, q := 1 }

/-- C6 (amended): snapshot marshalling round-trips modulo the documented
normalizations.  For a state with 16-bit AF and AF' and with Q ∈ {0, F}:
`import ∘ export` returns the state with R and R7 both replaced by the
combined byte `(R7 & 0x80) | (R & 0x7f)` and with `interrupts_enabled_at`
normalized to `tstates` when it equals `tstates` and to the sentinel
otherwise (all other fields, Q included, restored exactly); consequently
`export ∘ import ∘ export = export`.  R is exported as
`(R7 & 0x80) | (R & 0x7f)` and import sets both R and R7 to the loaded
byte; `last_instruction_ei` is exported as the test
`interrupts_enabled_at == tstates` and import maps it back to
`tstates`/sentinel; Q is restored to the loaded F when
`last_instruction_set_f` is set and to 0 otherwise. -/
theorem snapshot_roundtrip_modulo (z : Z80State) (ts : Nat)
    (haf : z.af < 65536) (haf2 : z.af_ < 65536) (hq : z.q = 0 ∨ z.q = lo8 z.af) :
    z80_from_snapshot z (z80_to_snapshot z ts) ts =
      { z with
        r := (z.r7 &&& 0x80) ||| (z.r &&& 0x7f),
        r7 := (z.r7 &&& 0x80) ||| (z.r &&& 0x7f),
        interrupts_enabled_at :=
          if z.interrupts_enabled_at = (ts : Int) then (ts : Int) else -1 }
    ∧ z80_to_snapshot (z80_from_snapshot z (z80_to_snapshot z ts) ts) ts =
        z80_to_snapshot z ts
    ∧ (z80_to_snapshot z ts).r = (z.r7 &&& 0x80) ||| (z.r &&& 0x7f)
    ∧ (z80_to_snapshot z ts).last_instruction_ei =
        decide (z.interrupts_enabled_at = (ts : Int))
    ∧ (∀ snap : Snap,
        (z80_from_snapshot z snap ts).r = snap.r ∧
        (z80_from_snapshot z snap ts).r7 = snap.r ∧
        (z80_from_snapshot z snap ts).interrupts_enabled_at =
          (if snap.last_instruction_ei then (ts : Int) else -1) ∧
        (z80_from_snapshot z snap ts).q =
          (if snap.last_instruction_set_f then snap.f else 0)) := by
  have hafid : 256 * hi8 z.af + lo8 z.af = z.af := by unfold hi8 lo8; omega
  have hafid2 : 256 * hi8 z.af_ + lo8 z.af_ = z.af_ := by unfold hi8 lo8; omega
  have hqid : (if z.q = 0 then 0 else lo8 z.af) = z.q := by
    rcases hq with h | h
    · simp [h]
    · rw [← h]
      by_cases h0 : z.q = 0 <;> simp [h0]
  have hei : (decide ((if z.interrupts_enabled_at = (ts : Int) then (ts : Int) else -1) =
      (ts : Int))) = decide (z.interrupts_enabled_at = (ts : Int)) := by
    by_cases hat : z.interrupts_enabled_at = (ts : Int)
    · simp [hat]
    · have hne : ¬ ((-1 : Int) = (ts : Int)) := by omega
      simp [hat, hne]
  have h1 : z80_from_snapshot z (z80_to_snapshot z ts) ts =
      { z with
        r := (z.r7 &&& 0x80) ||| (z.r &&& 0x7f),
        r7 := (z.r7 &&& 0x80) ||| (z.r &&& 0x7f),
        interrupts_enabled_at :=
          if z.interrupts_enabled_at = (ts : Int) then (ts : Int) else -1 } := by
    simp [z80_from_snapshot, z80_to_snapshot, hafid, hafid2, hqid]
  refine ⟨h1, ?_, rfl, rfl, fun snap => ⟨rfl, rfl, rfl, rfl⟩⟩
  rw [h1]
  have hrr := byte_mask_split ((z.r7 &&& 0x80) ||| (z.r &&& 0x7f)) (r_combined_lt z.r z.r7)
  simp [z80_to_snapshot, hrr, hei]

/-- C6 witness: at `exState` (whose AF, AF' are 16-bit and Q = 0) with the
clock at 7, importing the export restores the state exactly (the combined
refresh byte is 0 and the sentinel is preserved), and re-exporting
reproduces the snapshot. -/
theorem snapshot_roundtrip_modulo_witness :
    (exState.af < 65536 ∧ exState.af_ < 65536 ∧
      (exState.q = 0 ∨ exState.q = lo8 exState.af)) ∧
    z80_from_snapshot exState (z80_to_snapshot exState 7) 7 = exState ∧
    z80_to_snapshot (z80_from_snapshot exState (z80_to_snapshot exState 7) 7) 7 =
      z80_to_snapshot exState 7 := by
  have h := snapshot_roundtrip_modulo exState 7 (by decide) (by decide) (by decide)
  exact ⟨⟨by decide, by decide, by decide⟩, h.1.trans (by decide), h.2.1⟩

/-- C6 counterexample: at the reachable state `exSnapState` (R=1, R7=0,
`interrupts_enabled_at` = 5, clock 100) the re-import differs from the
original beyond the Q-when-F=0 ambiguity — R7 comes back as 1 and
`interrupts_enabled_at` as the sentinel, while Q round-trips exactly — and
at `exSnapQ` (Q=1, F=0) even `export ∘ import ∘ export ≠ export`. -/
theorem snapshot_roundtrip_counterexample :
    (z80_from_snapshot exSnapState (z80_to_snapshot exSnapState 100) 100).r7 ≠
      exSnapState.r7 ∧
    (z80_from_snapshot exSnapState (z80_to_snapshot exSnapState 100) 100).q =
      exSnapState.q ∧
    (z80_from_snapshot exSnapState
        (z80_to_snapshot exSnapState 100) 100).interrupts_enabled_at ≠
      exSnapState.interrupts_enabled_at ∧
    z80_to_snapshot (z80_from_snapshot exSnapQ (z80_to_snapshot exSnapQ 0) 0) 0 ≠
      z80_to_snapshot exSnapQ 0 := by
  decide

/-- Concrete snapshot whose refresh byte 0x90 has bit 7 set and a nonzero
low part. -/
def exSnap : Snap :=
  { a := 0, f := 0, a_ := 0, f_ := 0, bc := 0, de := 0, hl := 0,
    bc_ := 0, de_ := 0, hl_ := 0, ix := 0, iy := 0, i := 0, r := 0x90,
    sp := 0, pc := 0, memptr := 0, iff1 := 0, iff2 := 0, im := 1, halted := 0,
    last_instruction_ei := false, last_instruction_set_f := false }

/-- C8 (amended): the refresh halves are bytes but the claimed bounds are
not invariant.  After `z80_reset` both halves are 0 (so `R ≤ 0x7F` and
`R7 ∈ {0, 0x80}` hold); interrupt acceptance leaves R7 unchanged and sets R
to `(R+1) mod 256`, which leaves `[0, 0x7F]` when R was 0x7F; and snapshot
loading sets both R and R7 to the full loaded byte, which can violate both
bounds. -/
theorem refresh_register_bytes :
    (∀ hard z, (z80_reset hard z).r = 0 ∧ (z80_reset hard z).r7 = 0) ∧
    (∀ (p : IntParams) (z : Z80State) (b : BusState) (off : Int),
      z.iff1 ≠ 0 → b.tstates < p.interrupt_length → ¬ p.intdisable →
      ¬ ((b.tstates : Int) = z.interrupts_enabled_at) → z.halted = 0 → z.im = 2 →
      (match z80_interrupt p z b off with
        | some (_, z1, _, _) => z1.r7 = z.r7 ∧ z1.r = (z.r + 1) % 256
        | none => False)) ∧
    (∀ z snap ts, (z80_from_snapshot z snap ts).r = snap.r ∧
      (z80_from_snapshot z snap ts).r7 = snap.r) := by
  refine ⟨?_, ?_, ?_⟩
  · intro hard z
    by_cases hh : hard ≠ 0 <;> simp [z80_reset, hh]
  · intro p z b off h1 h2 h3 h4 h5 h6
    have hcond : z.iff1 ≠ 0 ∧ b.tstates < p.interrupt_length ∧ ¬ p.intdisable := ⟨h1, h2, h3⟩
    by_cases hc : z.iff2_read ≠ 0 ∧ ¬ p.is_cmos
    · simp only [z80_interrupt, writebyte, readbyte, h5, h6, if_pos hcond, if_pos hc,
        if_neg h4, ne_eq, not_true_eq_false, if_false, ite_false]
      exact ⟨trivial, trivial⟩
    · simp only [z80_interrupt, writebyte, readbyte, h5, h6, if_pos hcond, if_neg hc,
        if_neg h4, ne_eq, not_true_eq_false, if_false, ite_false]
      exact ⟨trivial, trivial⟩
  · intro z snap ts
    exact ⟨rfl, rfl⟩

/-- C8 witness: reset zeroes both halves at a concrete state; accepting an
interrupt from `exState` with R = 0x7E gives R = 0x7F with R7 still 0; and
loading `exSnap` (refresh byte 0x90) sets R = R7 = 0x90. -/
theorem refresh_register_bytes_witness :
    ((z80_reset 0 exState).r = 0 ∧ (z80_reset 0 exState).r7 = 0) ∧
    (match z80_interrupt exParams { exState with r := 0x7E } exBus 0 with
      | some (_, z1, _, _) => z1.r7 = 0 ∧ z1.r = 0x7F
      | none => False) ∧
    ((z80_from_snapshot exState exSnap 0).r = 0x90 ∧
      (z80_from_snapshot exState exSnap 0).r7 = 0x90) := by
  refine ⟨refresh_register_bytes.1 0 exState, ?_, refresh_register_bytes.2.2 exState exSnap 0⟩
  have h := refresh_register_bytes.2.1 exParams { exState with r := 0x7E } exBus 0
    (by decide) (by decide) (by decide) (by decide) (by decide) (by decide)
  exact h

/-- C8 counterexample: accepting an interrupt from a state with R = 0x7F
leaves R = 0x80 > 0x7F, and importing `exSnap` leaves R7 = 0x90 outside
{0x00, 0x80}, so the claimed bounds do not hold after every operation. -/
theorem refresh_register_bytes_counterexample :
    (match z80_interrupt exParams { exState with r := 0x7F } exBus 0 with
      | some (_, z1, _, _) => z1.r
      | none => 0) = 0x80 ∧
    ¬ ((0x80 : Nat) ≤ 0x7F) ∧
    (z80_from_snapshot exState exSnap 0).r7 = 0x90 ∧
    (0x90 : Nat) ≠ 0x00 ∧ (0x90 : Nat) ≠ 0x80 := by
  decide

/-- Machine timing profile and display geometry consumed by the contention
and floating-bus code of `spectrum.c`: the `machine_current->timings`
fields, `line_times` (T-state at which each displayed line's first visible
pixel begins) and the `display.h` constants `DISPLAY_BORDER_WIDTH_COLS`
(`borderCols`), `DISPLAY_BORDER_HEIGHT` (`borderHeight`) and
`DISPLAY_HEIGHT` (`displayHeight`), which are build-time constants outside
this slice and therefore parameters here. -/
structure Timings where
  tstates_per_line : Nat
  left_border : Nat
  horizontal_screen : Nat
  lineTimes : Nat → Nat
  borderCols : Nat
  borderHeight : Nat
  displayHeight : Nat

/-- Contention pattern `contention_pattern_65432100` of `spectrum.c`. -/
def contention_pattern_65432100 : List Nat := [5, 4, 3, 2, 1, 0, 0, 6]

/-- Contention pattern `contention_pattern_76543210` of `spectrum.c`. -/
def contention_pattern_76543210 : List Nat := [5, 4, 3, 2, 1, 0, 7, 6]

/-- The `line` computed by `contend_delay_common`:
`(libspectrum_signed_dword)(time - line_times[0]) / tstates_per_line`, a
32-bit unsigned subtraction reinterpreted as signed, then C truncating
division. -/
def contLine (m : Timings) (time : Nat) : Int :=
  (toSigned32 ((time : Int) - m.lineTimes 0)).tdiv m.tstates_per_line

/-- The `tstates_through_line` computed by `contend_delay_common`:
`time - line_times[0] + (left_border - 4*DISPLAY_BORDER_WIDTH_COLS)`
evaluated in 32-bit arithmetic and assigned to a C `int`, then reduced
`%= tstates_per_line` with C truncating remainder. -/
def contCol (m : Timings) (time : Nat) : Int :=
  (toSigned32 ((time : Int) - m.lineTimes 0 +
    ((m.left_border : Int) - 4 * m.borderCols))).tmod m.tstates_per_line

/-- Embedding of `contend_delay_common` from `spectrum.c`: zero delay in the
upper/lower border, the left border and the right border/retrace, otherwise
`timings[tstates_through_line % 8]` (the final index is nonnegative in every
reachable configuration since the left-border test has already imposed
`tstates_through_line ≥ left_border - offset`). -/
def contend_delay_common (m : Timings) (time : Nat) (timings : List Nat)
    (offset : Int) : Nat :=
  let line := contLine m time
  let tstates_through_line := contCol m time
  if line < m.borderHeight ∨ line ≥ (m.borderHeight : Int) + m.displayHeight then 0
  else if tstates_through_line < (m.left_border : Int) - offset then 0
  else if tstates_through_line ≥
      (m.left_border : Int) + m.horizontal_screen - offset then 0
  else timings.getD (tstates_through_line.tmod 8).toNat 0

/-- Embedding of `spectrum_contend_delay_65432100` from `spectrum.c`. -/
def spectrum_contend_delay_65432100 (m : Timings) (time : Nat) : Nat :=
  contend_delay_common m time contention_pattern_65432100 1

/-- Embedding of `spectrum_contend_delay_76543210` from `spectrum.c`. -/
def spectrum_contend_delay_76543210 (m : Timings) (time : Nat) : Nat :=
  contend_delay_common m time contention_pattern_76543210 4

/-- Display data consumed by the floating bus: the line-start tables of
`display.c` (outside this slice, hence abstract), the RAM page index
`memory_current_screen` and the RAM pages themselves. -/
structure DisplayParams where
  display_line_start : Nat → Nat
  display_attr_start : Nat → Nat
  memory_current_screen : Nat
  RAM : Nat → Nat → Nat

/-- The `line` computed by `spectrum_unattached_port`: how far past the top
border the clock is, in whole lines.  Under the guard
`tstates ≥ line_times[DISPLAY_BORDER_HEIGHT]` the C 32-bit difference is the
plain difference and the division is unsigned. -/
def uLine (m : Timings) (t : Nat) : Nat :=
  (t - m.lineTimes m.borderHeight) / m.tstates_per_line

/-- The `tstates_through_line` computed by `spectrum_unattached_port`(a C
`int` produced from 32-bit arithmetic; unlike the contention path it is not
reduced mod `tstates_per_line`). -/
def uCol (m : Timings) (t : Nat) : Int :=
  toSigned32 ((t : Int) - m.lineTimes (m.borderHeight + uLine m t) +
    ((m.left_border : Int) - 4 * m.borderCols))

/-- The `column` computed by `spectrum_unattached_port`:
`((tstates_through_line - left_border) / 8) * 2` (nonnegative once the
left-border test has passed). -/
def uColumn (m : Timings) (t : Nat) : Nat :=
  ((uCol m t - m.left_border).toNat / 8) * 2

/-- Embedding of `spectrum_unattached_port` from `spectrum.c` (floating
bus).  The `switch` with its two fallthrough `column++` arms becomes the
explicit case table; the unreachable trailing `return 0` (the switch covers
every residue of a value already known nonnegative) is omitted. -/
def spectrum_unattached_port (m : Timings) (d : DisplayParams) (tstates : Nat) : Nat :=
  if tstates < m.lineTimes m.borderHeight then 0xff
  else
    let line := uLine m tstates
    if line ≥ m.displayHeight then 0xff
    else
      let tstates_through_line := uCol m tstates
      if tstates_through_line < (m.left_border : Int) then 0xff
      else if tstates_through_line ≥
          (m.left_border : Int) + m.horizontal_screen then 0xff
      else
        let column := uColumn m tstates
        if tstates_through_line.tmod 8 = 5 then
          d.RAM d.memory_current_screen (d.display_attr_start line + column + 1)
        else if tstates_through_line.tmod 8 = 3 then
          d.RAM d.memory_current_screen (d.display_attr_start line + column)
        else if tstates_through_line.tmod 8 = 4 then
          d.RAM d.memory_current_screen (d.display_line_start line + column + 1)
        else if tstates_through_line.tmod 8 = 2 then
          d.RAM d.memory_current_screen (d.display_line_start line + column)
        else 0xff

/-- The slice of the machine state read and written by `spectrum_frame`:
the clock, the scheduler queue, the Z80's `interrupts_enabled_at` and the
frame counter. -/
structure SpectrumState where
  tstates : Nat
  events : List (Nat × Nat)
  interrupts_enabled_at : Int
  frames_since_reset : Nat

/-- Collaborator parameters of `spectrum_frame`: the RZX playback flag, the
machine's `tstates_per_frame`, the frame-event kind id, and the result of
`display_frame()` (nonzero meaning the user requested exit). -/
structure FrameParams where
  rzx_playback : Bool
  tstates_per_frame : Nat
  spectrum_frame_event : Nat
  display_frame_exit : Bool

/-- Modelled from the spec: `event_frame(L)` of the scheduler (`event.c` is
not part of this slice): subtract `L` from every queued entry's due time,
clamping negatives to zero. -/
def event_frame (L : Nat) (evs : List (Nat × Nat)) : List (Nat × Nat) :=
  evs.map (fun e => (e.1 - L, e.2))

/-- 32-bit wrapping subtraction, for the `libspectrum_dword` update
`tstates -= frame_length`. -/
def sub32 (a b : Nat) : Nat := (a + 2 ^ 32 - b % 2 ^ 32) % 2 ^ 32

/-- Embedding of `spectrum_frame` from `spectrum.c`, restricted to the state
it touches: choose the frame length (current `tstates` during RZX playback,
else `tstates_per_frame`), rebase the scheduler and the clock, rebase a
pending `interrupts_enabled_at`, bail out with 1 if the display reported a
user exit, re-arm the frame event unless in RZX playback, and count the
frame.  Sound, profiler, printer, loader and phantom-typist ticks touch
none of this state. -/
def spectrum_frame (p : FrameParams) (s : SpectrumState) : Nat × SpectrumState :=
  let frame_length := if p.rzx_playback then s.tstates else p.tstates_per_frame
  let s := { s with events := event_frame frame_length s.events }
  let s := { s with tstates := sub32 s.tstates frame_length }
  let s := if s.interrupts_enabled_at ≥ 0 then
      { s with interrupts_enabled_at := s.interrupts_enabled_at - frame_length }
    else s
  if p.display_frame_exit then (1, s)
  else
    let s := if ¬ p.rzx_playback then
        { s with events := event_add p.tstates_per_frame p.spectrum_frame_event s.events }
      else s
    (0, { s with frames_since_reset := s.frames_since_reset + 1 })

/-- C7: the frame rebase.  With `L` the frame length (`tstates` during RZX
playback, else the machine's `tstates_per_frame`), provided the clock is a
32-bit value at least `L` (which holds whenever the frame event fires),
`spectrum_frame` decreases `tstates` by exactly `L`, decreases
`interrupts_enabled_at` by exactly `L` when it was ≥ 0 and leaves it alone
otherwise, and maps every queued entry's due time to its value minus `L`
clamped at 0 (the queue afterwards is exactly the clamped queue, plus the
re-armed frame event when not in RZX playback and no exit was requested). -/
theorem spectrum_frame_rebase (p : FrameParams) (s : SpectrumState)
    (hts : s.tstates < 2 ^ 32)
    (hL : (if p.rzx_playback then s.tstates else p.tstates_per_frame) ≤ s.tstates) :
    (let L := if p.rzx_playback then s.tstates else p.tstates_per_frame
     (spectrum_frame p s).2.tstates = s.tstates - L ∧
     (0 ≤ s.interrupts_enabled_at →
       (spectrum_frame p s).2.interrupts_enabled_at =
         s.interrupts_enabled_at - (L : Int)) ∧
     (s.interrupts_enabled_at < 0 →
       (spectrum_frame p s).2.interrupts_enabled_at = s.interrupts_enabled_at) ∧
     (spectrum_frame p s).2.events.Perm
       ((if p.rzx_playback ∨ p.display_frame_exit then []
         else [(p.tstates_per_frame, p.spectrum_frame_event)]) ++
        s.events.map (fun e => (e.1 - L, e.2)))) := by
  by_cases hr : p.rzx_playback
  · have hsub : sub32 s.tstates s.tstates = s.tstates - s.tstates := by
      unfold sub32; omega
    by_cases hx : p.display_frame_exit
    all_goals by_cases hat : 0 ≤ s.interrupts_enabled_at
    all_goals
      simp [spectrum_frame, event_frame, hr, hx, hat, hsub, not_le.mp,
        List.Perm.refl]
  · have hsub : sub32 s.tstates p.tstates_per_frame =
        s.tstates - p.tstates_per_frame := by
      simp only [if_neg hr] at hL
      unfold sub32; omega
    by_cases hx : p.display_frame_exit
    all_goals by_cases hat : 0 ≤ s.interrupts_enabled_at
    all_goals
      simp [spectrum_frame, event_frame, event_add, hr, hx, hat, hsub,
        List.perm_orderedInsert]

/-- Concrete frame parameters: no RZX playback, 70000 T-states per frame,
frame-event kind 1, no exit request. -/
def exFrameParams : FrameParams :=
  { rzx_playback := false, tstates_per_frame := 70000,
    spectrum_frame_event := 1, display_frame_exit := false }

/-- Concrete frame state: clock past the frame length, one due entry and one
overdue entry, a pending EI mark at 40, three frames counted. -/
def exFrameState : SpectrumState :=
  { tstates := 70100, events := [(70000, 1), (100, 2)],
    interrupts_enabled_at := 40, frames_since_reset := 3 }

/-- C7 witness: rebasing `exFrameState` by 70000 leaves the clock at 100,
moves the EI mark to 40 - 70000 = -69960, clamps the overdue entry to 0 and
re-arms the frame event at 70000. -/
theorem spectrum_frame_rebase_witness :
    (exFrameState.tstates < 2 ^ 32 ∧
      (if exFrameParams.rzx_playback then exFrameState.tstates
        else exFrameParams.tstates_per_frame) ≤ exFrameState.tstates) ∧
    (spectrum_frame exFrameParams exFrameState).2.tstates = 100 ∧
    (spectrum_frame exFrameParams exFrameState).2.interrupts_enabled_at = -69960 ∧
    (spectrum_frame exFrameParams exFrameState).2.events.Perm
      [(70000, 1), (0, 1), (0, 2)] := by
  have h := spectrum_frame_rebase exFrameParams exFrameState (by decide) (by decide)
  exact ⟨⟨by decide, by decide⟩, h.1, h.2.1 (by decide), h.2.2.2⟩

/-- Concrete 48K-like timing profile: 224 T-states per line, left border 24,
horizontal screen 128, affine line-start table, 4 border columns, 24 border
lines, 192 display lines. -/
def exTimings : Timings :=
  { tstates_per_line := 224, left_border := 24, horizontal_screen := 128,
    lineTimes := fun n => 1000 + 224 * n, borderCols := 4,
    borderHeight := 24, displayHeight := 192 }

/-- C4: the contention delay functions return 0 when the computed line is
outside the vertical display region (regardless of `col_ts`), 0 in the left
border (`col_ts < left_border - offset`) and in the right border/retrace
(`col_ts ≥ left_border + horizontal_screen - offset`), and otherwise
`pattern[col_ts mod 8]`, where the 48K-like function uses pattern
[5,4,3,2,1,0,0,6] with offset 1 and the 128K-like function uses pattern
[5,4,3,2,1,0,7,6] with offset 4 (stated for machines whose left border is
at least the offset, as on all real profiles). -/
theorem contend_delay_spec (m : Timings) (time : Nat) (hlb : 4 ≤ m.left_border) :
    ((contLine m time < m.borderHeight ∨
        contLine m time ≥ (m.borderHeight : Int) + m.displayHeight) →
      spectrum_contend_delay_65432100 m time = 0 ∧
      spectrum_contend_delay_76543210 m time = 0) ∧
    (contCol m time < (m.left_border : Int) - 1 →
      spectrum_contend_delay_65432100 m time = 0) ∧
    (contCol m time ≥ (m.left_border : Int) + m.horizontal_screen - 1 →
      spectrum_contend_delay_65432100 m time = 0) ∧
    (¬ (contLine m time < m.borderHeight ∨
        contLine m time ≥ (m.borderHeight : Int) + m.displayHeight) →
      (m.left_border : Int) - 1 ≤ contCol m time →
      contCol m time < (m.left_border : Int) + m.horizontal_screen - 1 →
      spectrum_contend_delay_65432100 m time =
        contention_pattern_65432100.getD ((contCol m time) % 8).toNat 0) ∧
    (contCol m time < (m.left_border : Int) - 4 →
      spectrum_contend_delay_76543210 m time = 0) ∧
    (contCol m time ≥ (m.left_border : Int) + m.horizontal_screen - 4 →
      spectrum_contend_delay_76543210 m time = 0) ∧
    (¬ (contLine m time < m.borderHeight ∨
        contLine m time ≥ (m.borderHeight : Int) + m.displayHeight) →
      (m.left_border : Int) - 4 ≤ contCol m time →
      contCol m time < (m.left_border : Int) + m.horizontal_screen - 4 →
      spectrum_contend_delay_76543210 m time =
        contention_pattern_76543210.getD ((contCol m time) % 8).toNat 0) := by
  refine ⟨?_, ?_, ?_, ?_, ?_, ?_, ?_⟩
  · intro hout
    exact ⟨by simp [spectrum_contend_delay_65432100, contend_delay_common, hout],
      by simp [spectrum_contend_delay_76543210, contend_delay_common, hout]⟩
  · intro hcol
    by_cases hout : contLine m time < (m.borderHeight : Int) ∨
        contLine m time ≥ (m.borderHeight : Int) + m.displayHeight
    · simp [spectrum_contend_delay_65432100, contend_delay_common, hout]
    · simp [spectrum_contend_delay_65432100, contend_delay_common, hout, hcol]
  · intro hcol
    by_cases hout : contLine m time < (m.borderHeight : Int) ∨
        contLine m time ≥ (m.borderHeight : Int) + m.displayHeight
    · simp [spectrum_contend_delay_65432100, contend_delay_common, hout]
    · have h2 : ¬ (contCol m time < (m.left_border : Int) - 1) := by omega
      simp [spectrum_contend_delay_65432100, contend_delay_common, hout, h2, hcol]
  · intro hout h1 h2
    have hc0 : (0 : Int) ≤ contCol m time := by omega
    have hn1 : ¬ (contCol m time < (m.left_border : Int) - 1) := by omega
    have hn2 : ¬ (contCol m time ≥
        (m.left_border : Int) + m.horizontal_screen - 1) := by omega
    have htm : (contCol m time).tmod 8 = contCol m time % 8 :=
      Int.tmod_eq_emod hc0 (by norm_num)
    simp [spectrum_contend_delay_65432100, contend_delay_common, hout, hn1, hn2, htm]
  · intro hcol
    by_cases hout : contLine m time < (m.borderHeight : Int) ∨
        contLine m time ≥ (m.borderHeight : Int) + m.displayHeight
    · simp [spectrum_contend_delay_76543210, contend_delay_common, hout]
    · simp [spectrum_contend_delay_76543210, contend_delay_common, hout, hcol]
  · intro hcol
    by_cases hout : contLine m time < (m.borderHeight : Int) ∨
        contLine m time ≥ (m.borderHeight : Int) + m.displayHeight
    · simp [spectrum_contend_delay_76543210, contend_delay_common, hout]
    · have h2 : ¬ (contCol m time < (m.left_border : Int) - 4) := by omega
      simp [spectrum_contend_delay_76543210, contend_delay_common, hout, h2, hcol]
  · intro hout h1 h2
    have hc0 : (0 : Int) ≤ contCol m time := by omega
    have hn1 : ¬ (contCol m time < (m.left_border : Int) - 4) := by omega
    have hn2 : ¬ (contCol m time ≥
        (m.left_border : Int) + m.horizontal_screen - 4) := by omega
    have htm : (contCol m time).tmod 8 = contCol m time % 8 :=
      Int.tmod_eq_emod hc0 (by norm_num)
    simp [spectrum_contend_delay_76543210, contend_delay_common, hout, hn1, hn2, htm]

/-- C4 witness: on the 48K-like profile, T-state 6416 maps to display line
24 and `col_ts` = 48 (inside the contended window, residue 0), so both
functions return 5; T-state 1000 maps to line 0, inside the top border, so
both functions return 0. -/
theorem contend_delay_spec_witness :
    (4 ≤ exTimings.left_border) ∧
    spectrum_contend_delay_65432100 exTimings 6416 = 5 ∧
    spectrum_contend_delay_76543210 exTimings 6416 = 5 ∧
    spectrum_contend_delay_65432100 exTimings 1000 = 0 ∧
    spectrum_contend_delay_76543210 exTimings 1000 = 0 := by
  have h1 := contend_delay_spec exTimings 6416 (by decide)
  have h2 := contend_delay_spec exTimings 1000 (by decide)
  refine ⟨by decide, ?_, ?_, ?_, ?_⟩
  · exact (h1.2.2.2.1 (by decide) (by decide) (by decide)).trans (by decide)
  · exact (h1.2.2.2.2.2.2 (by decide) (by decide) (by decide)).trans (by decide)
  · exact (h2.1 (by decide)).1
  · exact (h2.1 (by decide)).2

/-- C9 (amended): contention window of the 48K-like function.  On a line
inside the vertical display region (and with `left_border ≥ 4` as on real
profiles), the returned delay equals `pattern_A[col_ts & 7]` for every
`col_ts` in the half-open interval [left_border-1, left_border+
horizontal_screen-1), and is 0 for every `col_ts` outside it (the
amendment: the original claim ended the interval one T-state early, at
left_border+horizontal_screen-2; the code's right-border test uses
offset 1, so the last contended T-state is left_border+horizontal_screen-2
itself). -/
theorem contend_48k_interval (m : Timings) (time : Nat) (hlb : 4 ≤ m.left_border)
    (hin : ¬ (contLine m time < (m.borderHeight : Int) ∨
      contLine m time ≥ (m.borderHeight : Int) + m.displayHeight)) :
    ((m.left_border : Int) - 1 ≤ contCol m time →
      contCol m time < (m.left_border : Int) + m.horizontal_screen - 1 →
      spectrum_contend_delay_65432100 m time =
        contention_pattern_65432100.getD ((contCol m time) % 8).toNat 0) ∧
    (contCol m time < (m.left_border : Int) - 1 ∨
      (m.left_border : Int) + m.horizontal_screen - 1 ≤ contCol m time →
      spectrum_contend_delay_65432100 m time = 0) := by
  constructor
  · intro h1 h2
    have hc0 : (0 : Int) ≤ contCol m time := by omega
    have hn1 : ¬ (contCol m time < (m.left_border : Int) - 1) := by omega
    have hn2 : ¬ (contCol m time ≥
        (m.left_border : Int) + m.horizontal_screen - 1) := by omega
    have htm : (contCol m time).tmod 8 = contCol m time % 8 :=
      Int.tmod_eq_emod hc0 (by norm_num)
    simp [spectrum_contend_delay_65432100, contend_delay_common, hin, hn1, hn2, htm]
  · rintro (h | h)
    · simp [spectrum_contend_delay_65432100, contend_delay_common, hin, h]
    · have hn1 : ¬ (contCol m time < (m.left_border : Int) - 1) := by omega
      have h2 : contCol m time ≥
          (m.left_border : Int) + m.horizontal_screen - 1 := by omega
      simp [spectrum_contend_delay_65432100, contend_delay_common, hin, hn1, h2]

/-- C9 witness: on the 48K-like profile, T-state 6416 (display line 24,
`col_ts` = 48, inside the window) yields delay 5 = pattern_A[0]; T-state
6390 (`col_ts` = 22 < left_border-1) yields 0. -/
theorem contend_48k_interval_witness :
    (4 ≤ exTimings.left_border) ∧
    (¬ (contLine exTimings 6416 < (24 : Int) ∨
        contLine exTimings 6416 ≥ (24 : Int) + 192)) ∧
    spectrum_contend_delay_65432100 exTimings 6416 = 5 ∧
    spectrum_contend_delay_65432100 exTimings 6390 = 0 := by
  have h1 := contend_48k_interval exTimings 6416 (by decide) (by decide)
  have h2 := contend_48k_interval exTimings 6390 (by decide) (by decide)
  exact ⟨by decide, by decide,
    (h1.1 (by decide) (by decide)).trans (by decide),
    h2.2 (by decide)⟩

/-- Timing profile refuting the claimed interval: `left_border = 26` and
`horizontal_screen = 128`, so `left_border + horizontal_screen - 2 = 152`
has residue 0 and pattern value 5. -/
def exTimingsCt : Timings :=
  { tstates_per_line := 200, left_border := 26, horizontal_screen := 128,
    lineTimes := fun _ => 0, borderCols := 4,
    borderHeight := 24, displayHeight := 192 }

/-- C9 counterexample: on `exTimingsCt`, T-state 4942 maps to display line
24 with `col_ts` = 152 = left_border+horizontal_screen-2, which lies
outside the claimed interval [25, 152), yet the function returns
pattern_A[152 & 7] = 5, not the claimed 0. -/
theorem contend_48k_interval_counterexample :
    (¬ (contLine exTimingsCt 4942 < (24 : Int) ∨
        contLine exTimingsCt 4942 ≥ (24 : Int) + 192)) ∧
    contCol exTimingsCt 4942 = 26 + 128 - 2 ∧
    ¬ ((26 : Int) - 1 ≤ contCol exTimingsCt 4942 ∧
        contCol exTimingsCt 4942 < (26 : Int) + 128 - 2) ∧
    spectrum_contend_delay_65432100 exTimingsCt 4942 = 5 ∧
    (5 : Nat) ≠ 0 := by
  decide

/-- Concrete display data: affine pixel/attribute line-start tables, active
display page 5, and RAM contents encoding (page, offset) injectively as
`page*100000 + offset`, so the returned value identifies the cell read. -/
def exDisplay : DisplayParams :=
  { display_line_start := fun n => 32 * n,
    display_attr_start := fun n => 6144 + 32 * n,
    memory_current_screen := 5,
    RAM := fun pg off => pg * 100000 + off }

/-- C5: the floating bus.  Outside the display area (top border, lower
border, left border, right border/retrace) an unattached-port read returns
0xFF; inside, with `column = ((col_ts - left_border)/8)*2`, it returns the
pixel byte at `display_line_start[line] + column` when `col_ts mod 8 = 2`,
the pixel byte at `display_line_start[line] + column + 1` when it is 4, the
attribute byte at `display_attr_start[line] + column` when it is 3, the
attribute byte at `display_attr_start[line] + column + 1` when it is 5, and
0xFF for residues 0, 1, 6 and 7 — all bytes from the RAM page
`memory_current_screen`. -/
theorem spectrum_unattached_port_spec (m : Timings) (d : DisplayParams) (t : Nat) :
    (t < m.lineTimes m.borderHeight → spectrum_unattached_port m d t = 0xff) ∧
    (¬ t < m.lineTimes m.borderHeight → uLine m t ≥ m.displayHeight →
      spectrum_unattached_port m d t = 0xff) ∧
    (¬ t < m.lineTimes m.borderHeight → uLine m t < m.displayHeight →
      uCol m t < (m.left_border : Int) → spectrum_unattached_port m d t = 0xff) ∧
    (¬ t < m.lineTimes m.borderHeight → uLine m t < m.displayHeight →
      uCol m t ≥ (m.left_border : Int) + m.horizontal_screen →
      spectrum_unattached_port m d t = 0xff) ∧
    (¬ t < m.lineTimes m.borderHeight → uLine m t < m.displayHeight →
      (m.left_border : Int) ≤ uCol m t →
      uCol m t < (m.left_border : Int) + m.horizontal_screen →
      ((uCol m t % 8 = 2 → spectrum_unattached_port m d t =
          d.RAM d.memory_current_screen
            (d.display_line_start (uLine m t) + uColumn m t)) ∧
       (uCol m t % 8 = 4 → spectrum_unattached_port m d t =
          d.RAM d.memory_current_screen
            (d.display_line_start (uLine m t) + uColumn m t + 1)) ∧
       (uCol m t % 8 = 3 → spectrum_unattached_port m d t =
          d.RAM d.memory_current_screen
            (d.display_attr_start (uLine m t) + uColumn m t)) ∧
       (uCol m t % 8 = 5 → spectrum_unattached_port m d t =
          d.RAM d.memory_current_screen
            (d.display_attr_start (uLine m t) + uColumn m t + 1)) ∧
       (uCol m t % 8 = 0 ∨ uCol m t % 8 = 1 ∨ uCol m t % 8 = 6 ∨ uCol m t % 8 = 7 →
          spectrum_unattached_port m d t = 0xff))) := by
  refine ⟨?_, ?_, ?_, ?_, ?_⟩
  · intro h
    simp [spectrum_unattached_port, h]
  · intro h1 h2
    simp [spectrum_unattached_port, h1, h2]
  · intro h1 h2 h3
    have h2' : ¬ (uLine m t ≥ m.displayHeight) := not_le.mpr h2
    simp [spectrum_unattached_port, h1, h2', h3]
  · intro h1 h2 h3
    have h2' : ¬ (uLine m t ≥ m.displayHeight) := not_le.mpr h2
    have h3' : ¬ (uCol m t < (m.left_border : Int)) := by omega
    simp [spectrum_unattached_port, h1, h2', h3', h3]
  · intro h1 h2 h3 h4
    have h2' : ¬ (uLine m t ≥ m.displayHeight) := not_le.mpr h2
    have hn3 : ¬ (uCol m t < (m.left_border : Int)) := not_lt.mpr h3
    have hn4 : ¬ (uCol m t ≥ (m.left_border : Int) + m.horizontal_screen) :=
      not_le.mpr h4
    have hc0 : (0 : Int) ≤ uCol m t := by omega
    have htm : (uCol m t).tmod 8 = uCol m t % 8 :=
      Int.tmod_eq_emod hc0 (by norm_num)
    refine ⟨?_, ?_, ?_, ?_, ?_⟩
    · intro hk
      simp [spectrum_unattached_port, h1, h2', hn3, hn4, htm, hk]
    · intro hk
      simp [spectrum_unattached_port, h1, h2', hn3, hn4, htm, hk]
    · intro hk
      simp [spectrum_unattached_port, h1, h2', hn3, hn4, htm, hk]
    · intro hk
      simp [spectrum_unattached_port, h1, h2', hn3, hn4, htm, hk]
    · rintro (hk | hk | hk | hk) <;>
        simp [spectrum_unattached_port, h1, h2', hn3, hn4, htm, hk]

/-- C5 witness: on the 48K-like profile with `exDisplay`, T-state 8651 falls
on display line 10 with `col_ts` = 43 (residue 3) and `column` = 4, so the
read returns the attribute byte at offset 6144 + 320 + 4 = 6468 of page 5
(encoded 506468); T-state 1000 is in the top border and returns 0xFF. -/
theorem spectrum_unattached_port_spec_witness :
    (¬ (8651 : Nat) < exTimings.lineTimes exTimings.borderHeight ∧
      uLine exTimings 8651 < exTimings.displayHeight ∧
      (exTimings.left_border : Int) ≤ uCol exTimings 8651 ∧
      uCol exTimings 8651 <
        (exTimings.left_border : Int) + exTimings.horizontal_screen ∧
      uCol exTimings 8651 % 8 = 3 ∧ uColumn exTimings 8651 = 4) ∧
    spectrum_unattached_port exTimings exDisplay 8651 = 506468 ∧
    spectrum_unattached_port exTimings exDisplay 1000 = 0xff := by
  have h := spectrum_unattached_port_spec exTimings exDisplay 8651
  have h2 := spectrum_unattached_port_spec exTimings exDisplay 1000
  refine ⟨by decide, ?_, h2.1 (by decide)⟩
  exact ((h.2.2.2.2 (by decide) (by decide) (by decide) (by decide)).2.2.1
    (by decide)).trans (by decide)

/-- C2: a soft reset (`z80_reset` with `hard_reset` false) sets AF and AF' to
0xFFFF, I, R, R7, PC, IFF1, IFF2, IM, HALT, `iff2_read` and Q to 0, SP to
0xFFFF, and `interrupts_enabled_at` to the negative sentinel, while leaving
BC, DE, HL, the shadow pairs, IX, IY and MEMPTR unchanged — in particular a
pre-state with BC=0x1234, DE=0x5678, HL=0x9ABC, IX=0xDEAD, AF=0x0042 keeps
those four pairs and gets AF=AF'=0xFFFF, PC=0, SP=0xFFFF, IFF1=IFF2=IM=0. -/
theorem z80_reset_soft_spec (z : Z80State) :
    z80_reset 0 z =
      { z with
        af := 0xffff, af_ := 0xffff,
        i := 0, r := 0, r7 := 0,
        pc := 0,
        sp := 0xffff,
        iff1 := 0, iff2 := 0, im := 0,
        halted := 0,
        iff2_read := 0,
        q := 0,
        interrupts_enabled_at := -1 } := by
  simp [z80_reset]

end Fuse
